import Mathlib

/- A shallow embedding of the trace-identifier subsystem of the logger
   repository: span-context identifiers, flag-byte decoding, hex
   serialization, parent/child derivation and the probabilistic sampler.
   Machine bytes are modelled as `Nat` values below 256, byte buffers as
   `List Nat`, strings as `List Char`; randomness and the clock enter as
   explicit parameters. -/

namespace LoggerSpec

def traceIDSize : Nat := 16

def spanIDSize : Nat := 8

def totalIDSize : Nat := traceIDSize + spanIDSize * 2

def flagBitsNonTypeMarker : Nat := 5

def traceFlagOldDebug : Nat := 1

def traceFlagSampled : Nat := 2

def traceFlagCritical : Nat := 4

def typeMarkerForOldFormat : Nat := 0

def typeMarkerForDebug : Nat := 2 <<< 5

def typeMarkerForStressTest : Nat := 3 <<< 5

def typeMarkerForShadow : Nat := 4 <<< 5

def typeMarkerMask : Nat := 7 <<< 5

/-- Model of Go struct `spanContext`: a 32-byte identifier plus the
    mutable child-sequence counter (uint16, kept below 65536). -/
structure SpanCtx where
  childSequenceID : Nat
  id : List Nat
deriving DecidableEq

def dummyCtx : SpanCtx := { childSequenceID := 0, id := [] }

/-- Go `spanContext.TraceID`: first 16 bytes of the identifier. -/
def traceID (sc : SpanCtx) : List Nat := sc.id.take traceIDSize

/-- Go `spanContext.SpanID`: bytes 16..23 of the identifier. -/
def spanID (sc : SpanCtx) : List Nat := (sc.id.drop traceIDSize).take spanIDSize

/-- Go `spanContext.ParentID`: bytes 24..31 of the identifier. -/
def parentID (sc : SpanCtx) : List Nat := sc.id.drop (traceIDSize + spanIDSize)

/-- Go `spanContext.level`: byte 0 of the SpanID, i.e. `id[traceIDSize]`. -/
def level (sc : SpanCtx) : Nat := sc.id.getD traceIDSize 0

/-- Go `spanContext.Bytes`: the full 32-byte identifier. -/
def scBytes (sc : SpanCtx) : List Nat := sc.id

/-- Lower-case hex digit for a value below 16, as in Go's hextable. -/
def hexDigit (n : Nat) : Char :=
  if n < 10 then Char.ofNat (48 + n) else Char.ofNat (87 + n)

/-- Hex encoding of one byte: high nibble then low nibble. -/
def hexEncodeByte (b : Nat) : List Char := [hexDigit (b / 16), hexDigit (b % 16)]

/-- Go `hex.Encode` over a byte buffer. -/
def hexEncode : List Nat → List Char
  | [] => []
  | b :: bs => hexEncodeByte b ++ hexEncode bs

/-- Go `spanContext.String`: `hex(TraceID)` ++ ":" ++ `hex(SpanID)` ++ ":" ++ `hex(ParentID)`. -/
def scString (sc : SpanCtx) : List Char :=
  hexEncode (traceID sc) ++ ':' :: (hexEncode (spanID sc) ++ ':' :: hexEncode (parentID sc))

/-- Go `getSpecialFlag`: last byte of `TraceID()`. -/
def getSpecialFlag (sc : SpanCtx) : Nat := (traceID sc).getD (traceIDSize - 1) 0

/-- Go `isOldFormat`: type-marker bits of the special flag are all zero. -/
def isOldFormat (sc : SpanCtx) : Bool :=
  decide (getSpecialFlag sc &&& typeMarkerMask = typeMarkerForOldFormat)

/-- Standalone `GetTypeMarker` from flag.go; `none` models a nil SpanContext. -/
def GetTypeMarker (osc : Option SpanCtx) : Nat :=
  match osc with
  | none => 0
  | some sc => (getSpecialFlag sc &&& typeMarkerMask) >>> flagBitsNonTypeMarker

/-- Standalone `IsSpanContextDebug` from flag.go. -/
def IsSpanContextDebug (osc : Option SpanCtx) : Bool :=
  match osc with
  | none => false
  | some sc =>
      if isOldFormat sc then
        decide (getSpecialFlag sc &&& traceFlagOldDebug = traceFlagOldDebug)
      else
        decide (getSpecialFlag sc &&& typeMarkerMask = typeMarkerForDebug)

/-- Standalone `IsSpanContextFromStressTest` from flag.go. -/
def IsSpanContextFromStressTest (osc : Option SpanCtx) : Bool :=
  match osc with
  | none => false
  | some sc => decide (getSpecialFlag sc &&& typeMarkerMask = typeMarkerForStressTest)

/-- Standalone `IsSpanContextShadow` from flag.go. -/
def IsSpanContextShadow (osc : Option SpanCtx) : Bool :=
  match osc with
  | none => false
  | some sc => decide (getSpecialFlag sc &&& typeMarkerMask = typeMarkerForShadow)

/-- Standalone `IsSpanContextSampled` from flag.go: sampled bit or debug. -/
def IsSpanContextSampled (osc : Option SpanCtx) : Bool :=
  match osc with
  | none => false
  | some sc =>
      decide (getSpecialFlag sc &&& traceFlagSampled = traceFlagSampled) ||
        IsSpanContextDebug (some sc)

/-- Standalone `IsSpanContextCritical` from flag.go. -/
def IsSpanContextCritical (osc : Option SpanCtx) : Bool :=
  match osc with
  | none => false
  | some sc => decide (getSpecialFlag sc &&& traceFlagCritical = traceFlagCritical)

/-- Deprecated method `spanContext.GetTypeMarker`, reading `sc.id[15]` directly. -/
def scGetTypeMarker (sc : SpanCtx) : Nat :=
  (sc.id.getD (traceIDSize - 1) 0 &&& typeMarkerMask) >>> flagBitsNonTypeMarker

/-- Deprecated method `spanContext.IsDebug`: early return on the legacy bit in
    old format, otherwise (fallthrough) the type-marker comparison. -/
def scIsDebug (sc : SpanCtx) : Bool :=
  if isOldFormat sc then
    if sc.id.getD (traceIDSize - 1) 0 &&& traceFlagOldDebug = traceFlagOldDebug then true
    else decide (sc.id.getD (traceIDSize - 1) 0 &&& typeMarkerMask = typeMarkerForDebug)
  else decide (sc.id.getD (traceIDSize - 1) 0 &&& typeMarkerMask = typeMarkerForDebug)

/-- Deprecated method `spanContext.IsFromStressTest`. -/
def scIsFromStressTest (sc : SpanCtx) : Bool :=
  decide (sc.id.getD (traceIDSize - 1) 0 &&& typeMarkerMask = typeMarkerForStressTest)

/-- Deprecated method `spanContext.IsSampled`. -/
def scIsSampled (sc : SpanCtx) : Bool :=
  decide (sc.id.getD (traceIDSize - 1) 0 &&& traceFlagSampled = traceFlagSampled) || scIsDebug sc

/-- Well-formed span context: 32-byte identifier, every entry a byte. -/
def WF (sc : SpanCtx) : Prop :=
  sc.id.length = totalIDSize ∧ ∀ b ∈ sc.id, b < 256

instance (sc : SpanCtx) : Decidable (WF sc) := by
  unfold WF; infer_instance

/-- Go `encoding/hex.fromHexChar`. -/
def fromHexChar (c : Char) : Option Nat :=
  if '0' ≤ c ∧ c ≤ '9' then some (c.toNat - 48)
  else if 'a' ≤ c ∧ c ≤ 'f' then some (c.toNat - 87)
  else if 'A' ≤ c ∧ c ≤ 'F' then some (c.toNat - 55)
  else none

/-- Outcome of one Go `hex.Decode` call into a sub-slice of a buffer:
    success with the updated buffer, a hex error, or an index-out-of-range
    crash (Go panic) when the source overruns the destination capacity. -/
inductive DecodeRes where
  | dok (buf : List Nat)
  | derr
  | dcrash
deriving DecidableEq

/-- Go `hex.Decode(dst, src)` where `dst` is the suffix of `buf` starting at
    `start`; `i` is the count of bytes already written.  Pairs of source
    characters are validated then written; an odd trailing character is an
    error; a write past the destination's capacity is the panic. -/
def hexDecodeGo (buf : List Nat) (start i : Nat) : List Char → DecodeRes
  | [] => .dok buf
  | [_] => .derr
  | p :: q :: rest =>
      match fromHexChar p, fromHexChar q with
      | some a, some b =>
          if i < buf.length - start then
            hexDecodeGo (buf.set (start + i) (16 * a + b)) start (i + 1) rest
          else .dcrash
      | _, _ => .derr

/-- Go `strings.Index data c` (first occurrence), `none` for -1. -/
def strIndex (c : Char) : List Char → Option Nat
  | [] => none
  | x :: xs => if x = c then some 0 else (strIndex c xs).map (· + 1)

/-- Go `strings.LastIndex data c` (last occurrence), `none` for -1. -/
def strLastIndex (c : Char) : List Char → Option Nat
  | [] => none
  | x :: xs =>
      match strLastIndex c xs with
      | some i => some (i + 1)
      | none => if x = c then some 0 else none

/-- Outcome of `NewSpanContextFromString`: a parsed context, the
    `errConvertToSpanContext`/hex error, or a crash (Go panic). -/
inductive ParseRes where
  | ok (sc : SpanCtx)
  | fmtErr
  | crash
deriving DecidableEq

/-- Go `NewSpanContextFromBytes`: exact 32-byte length check, then copy. -/
def NewSpanContextFromBytes (data : List Nat) : Option SpanCtx :=
  if data.length = totalIDSize then some { childSequenceID := 0, id := data } else none

/-- Go `NewSpanContextFromString`: reject empty input and inputs whose first
    colon is not strictly before the last one, then hex-decode the three
    segments into a zeroed 32-byte buffer at offsets 0, 16 and 24. -/
def NewSpanContextFromString (data : List Char) : ParseRes :=
  if data.length = 0 then .fmtErr
  else
    match strIndex ':' data, strLastIndex ':' data with
    | some firstColonIdx, some lastColonIdx =>
        if lastColonIdx ≤ firstColonIdx then .fmtErr
        else
          match hexDecodeGo (List.replicate totalIDSize 0) 0 0 (data.take firstColonIdx) with
          | .derr => .fmtErr
          | .dcrash => .crash
          | .dok b1 =>
              match hexDecodeGo b1 traceIDSize 0
                  ((data.drop (firstColonIdx + 1)).take (lastColonIdx - (firstColonIdx + 1))) with
              | .derr => .fmtErr
              | .dcrash => .crash
              | .dok b2 =>
                  match hexDecodeGo b2 (traceIDSize + spanIDSize) 0
                      (data.drop (lastColonIdx + 1)) with
                  | .derr => .fmtErr
                  | .dcrash => .crash
                  | .dok b3 => .ok { childSequenceID := 0, id := b3 }
    | _, _ => .fmtErr

/-- Overwrite `buf` starting at offset `off` with the bytes `bs`
    (specification device for the decode loop's writes). -/
def writeList : List Nat → Nat → List Nat → List Nat
  | buf, _, [] => buf
  | buf, off, b :: bs => writeList (buf.set off b) (off + 1) bs

/-- The `isAllZero` scan in `getRandomBytes`: `for i := 0; i < bsLen-1 && bs[i] != 0; i++ { isAllZero = false }`,
    written with explicit fuel. -/
def isAllZeroLoop (bs : List Nat) : Nat → Bool → Nat → Bool
  | _, acc, 0 => acc
  | i, acc, fuel + 1 =>
      if i < bs.length - 1 ∧ bs.getD i 0 ≠ 0 then isAllZeroLoop bs (i + 1) false fuel
      else acc

/-- Go `getRandomBytes`: the randomness is the input buffer itself; if the last
    byte is zero and the scan still reports all-zero, force the last byte
    to 1. -/
def getRandomBytes (bs : List Nat) : List Nat :=
  if bs.length = 0 then bs
  else
    if bs.getD (bs.length - 1) 0 = 0 then
      if isAllZeroLoop bs 0 true bs.length then bs.set (bs.length - 1) 1 else bs
    else bs

/-- Go `newSpanID`: level byte, big-endian sequence bytes (left zero when the
    sequence is zero), then the 5 random tail bytes. -/
def newSpanID (lvl seq : Nat) (rnd : List Nat) : List Nat :=
  lvl :: (if seq > 0 then [(seq >>> 8) % 256, seq % 256] else [0, 0]) ++ getRandomBytes rnd

/-- Go `spanContext.NewChildSpanContext` with explicit 5 random tail bytes:
    returns the parent with its counter advanced (uint16 wrap) and the new
    child (fresh counter, same TraceID, level+1 as a byte, ParentID = the
    parent's SpanID). -/
def newChildSpanContext (sc : SpanCtx) (rnd : List Nat) : SpanCtx × SpanCtx :=
  let currentSequenceID := sc.childSequenceID
  let parent : SpanCtx := { sc with childSequenceID := (sc.childSequenceID + 1) % 65536 }
  let childID :=
    traceID sc ++ newSpanID ((level sc + 1) % 256) currentSequenceID rnd ++ spanID sc
  (parent, { childSequenceID := 0, id := childID })

/-- Sequence number of a context: bytes 1-2 of its SpanID, big-endian. -/
def seqOf (sc : SpanCtx) : Nat := (spanID sc).getD 1 0 * 256 + (spanID sc).getD 2 0

/-- Iterate `NewChildSpanContext` on one instance, one random tail per call;
    returns the final parent state and the children in call order. -/
def spawnChildren (sc : SpanCtx) : List (List Nat) → SpanCtx × List SpanCtx
  | [] => (sc, [])
  | r :: rs =>
      let pc := newChildSpanContext sc r
      let rest := spawnChildren pc.1 rs
      (rest.1, pc.2 :: rest.2)

/-- Go struct `SpanContextOptions`. -/
structure SpanContextOptions where
  IsDebug : Bool
  IsFromStressTest : Bool
  IsShadow : Bool
  IsSampled : Option Bool
  IsCritical : Bool

/-- Environment consumed by one `NewSpanContext` call: the cached instance
    hash, the clock reading (already divided by 1000), the random bytes
    drawn for the TraceID and SpanID tails, and the sampler's decision. -/
structure GenEnv where
  instanceIDHash : List Nat
  timestamp : Nat
  rndTrace : List Nat
  rndSpan : List Nat
  samplerDecision : Bool

/-- Shape constraints the Go types enforce on the environment. -/
def EnvOK (env : GenEnv) : Prop :=
  env.instanceIDHash.length = 4 ∧ env.rndTrace.length = 5 ∧ env.rndSpan.length = 5

instance (env : GenEnv) : Decidable (EnvOK env) := by
  unfold EnvOK; infer_instance

/-- The six big-endian timestamp bytes written into `scID[4..9]`. -/
def tsBytes (ts : Nat) : List Nat :=
  [(ts >>> 40) % 256, (ts >>> 32) % 256, (ts >>> 24) % 256,
   (ts >>> 16) % 256, (ts >>> 8) % 256, ts % 256]

/-- Go `setTypeMarker`: debug first (via the temporary legacy bit), then
    stress test, then shadow; otherwise leave the flag unchanged. -/
def setTypeMarker (sco : SpanContextOptions) (traceFlag : Nat) : Nat :=
  if sco.IsDebug then traceFlag ||| traceFlagOldDebug
  else if sco.IsFromStressTest then
    (traceFlag &&& (255 ^^^ typeMarkerMask)) ||| typeMarkerForStressTest
  else if sco.IsShadow then
    (traceFlag &&& (255 ^^^ typeMarkerMask)) ||| typeMarkerForShadow
  else traceFlag

/-- Go `setSingleFlags`: explicit sampling override wins, else the sampler
    decision; then OR in the critical bit. -/
def setSingleFlags (sco : SpanContextOptions) (traceFlag : Nat) (samplerDecision : Bool) : Nat :=
  let tf1 :=
    match sco.IsSampled with
    | some v => if v then traceFlag ||| traceFlagSampled else traceFlag
    | none => if samplerDecision then traceFlag ||| traceFlagSampled else traceFlag
  if sco.IsCritical then tf1 ||| traceFlagCritical else tf1

/-- Go `newSpanContextID`: 4 hash bytes, 6 timestamp bytes, 5 random bytes,
    the flag byte, then a fresh root SpanID (level 0, sequence 0); the
    ParentID bytes of the zeroed 32-byte array are never written. -/
def newSpanContextID (env : GenEnv) (flag : Nat) : List Nat :=
  env.instanceIDHash ++ tsBytes env.timestamp ++ getRandomBytes env.rndTrace ++
    flag :: (newSpanID 0 0 env.rndSpan ++ List.replicate spanIDSize 0)

/-- Go `cachedSpanContextGenerator.NewSpanContext` with resolved options. -/
def NewSpanContext (env : GenEnv) (sco : SpanContextOptions) : SpanCtx :=
  let traceFlag := setSingleFlags sco (setTypeMarker sco 0) env.samplerDecision
  { childSequenceID := 0, id := newSpanContextID env traceFlag }

/-- Go struct `ProbabilisticSampler` (float64 modelled as ℚ; only order
    comparisons are performed on it). -/
structure ProbabilisticSampler where
  samplingRate : ℚ

/-- Go `NewProbabilisticSampler`: clamp the rate with `math.Max(0, math.Min(rate, 1))`. -/
def NewProbabilisticSampler (samplingRate : ℚ) : ProbabilisticSampler :=
  { samplingRate := max 0 (min samplingRate 1) }

/-- Go `ProbabilisticSampler.IsSampled`: one uniform draw in [0,1), sample iff
    it is below the rate. -/
def samplerIsSampled (s : ProbabilisticSampler) (draw : ℚ) : Bool :=
  decide (draw < s.samplingRate)

/-- A context whose identifier carries the given flag byte and is otherwise
    zero (used to quantify decoder claims over flag bytes). -/
def ctxOfFlag (flag : Nat) : SpanCtx :=
  { childSequenceID := 0, id := List.replicate 15 0 ++ flag :: List.replicate 16 0 }

end LoggerSpec

namespace LoggerSpec

theorem getSpecialFlag_eq (sc : SpanCtx) :
    getSpecialFlag sc = sc.id.getD (traceIDSize - 1) 0 := by
  unfold getSpecialFlag traceID
  rw [List.getD_eq_getElem?_getD, List.getD_eq_getElem?_getD, List.getElem?_take]
  simp [traceIDSize]

theorem getSpecialFlag_ctxOfFlag (flag : Nat) : getSpecialFlag (ctxOfFlag flag) = flag := by
  rw [getSpecialFlag_eq]
  unfold ctxOfFlag
  rw [List.getD_eq_getElem?_getD, List.getElem?_append_right (by simp [traceIDSize])]
  simp [traceIDSize]

/-- C6: with type-marker bits zero, `IsSpanContextDebug` falls back to the
    legacy debug bit; with nonzero marker bits it is true exactly when the
    marker equals the debug value, ignoring the legacy bit. -/
theorem debug_flag_legacy_fallback (flag : Nat) (h : flag < 256) :
    (flag &&& typeMarkerMask = 0 →
      (IsSpanContextDebug (some (ctxOfFlag flag)) = true ↔
        flag &&& traceFlagOldDebug = traceFlagOldDebug)) ∧
    (flag &&& typeMarkerMask ≠ 0 →
      (IsSpanContextDebug (some (ctxOfFlag flag)) = true ↔
        flag &&& typeMarkerMask = typeMarkerForDebug)) := by
  have hf := getSpecialFlag_ctxOfFlag flag
  constructor
  · intro hm
    have hold : isOldFormat (ctxOfFlag flag) = true := by
      simp [isOldFormat, hf, typeMarkerForOldFormat, hm]
    simp [IsSpanContextDebug, hold, hf]
  · intro hm
    have hold : isOldFormat (ctxOfFlag flag) = false := by
      simp [isOldFormat, hf, typeMarkerForOldFormat, hm]
    simp [IsSpanContextDebug, hold, hf]

/-- C6 witness: instantiated at the flag byte 3 (marker bits zero, legacy
    debug bit set). -/
theorem debug_flag_legacy_fallback_witness :
    IsSpanContextDebug (some (ctxOfFlag 3)) = true ↔
      3 &&& traceFlagOldDebug = traceFlagOldDebug :=
  (debug_flag_legacy_fallback 3 (by decide)).1 (by decide)

/-- C7: `IsSpanContextSampled` is true exactly when the context is present
    and has the sampled bit set or is reported as debug; debug implies
    sampled, and a nil context is not sampled. -/
theorem sampled_iff_bit_or_debug (osc : Option SpanCtx) :
    (IsSpanContextSampled osc = true ↔
      ∃ sc, osc = some sc ∧
        (getSpecialFlag sc &&& traceFlagSampled = traceFlagSampled ∨
          IsSpanContextDebug (some sc) = true)) ∧
    (IsSpanContextDebug osc = true → IsSpanContextSampled osc = true) ∧
    IsSpanContextSampled none = false := by
  refine ⟨?_, ?_, rfl⟩
  · cases osc with
    | none => simp [IsSpanContextSampled]
    | some sc => simp [IsSpanContextSampled, Bool.or_eq_true, decide_eq_true_iff]
  · cases osc with
    | none => simp [IsSpanContextDebug]
    | some sc =>
        intro hd
        simp [IsSpanContextSampled, hd]

/-- C7 witness: the legacy-debug context with an unset sampled bit is still
    reported as sampled. -/
theorem sampled_iff_bit_or_debug_witness :
    IsSpanContextSampled none = false :=
  (sampled_iff_bit_or_debug none).2.2

/-- C10: the deprecated `spanContext` methods decode the flag byte exactly
    as the standalone flag.go functions do on the same context. -/
theorem deprecated_methods_agree (sc : SpanCtx) :
    scIsDebug sc = IsSpanContextDebug (some sc) ∧
    scIsSampled sc = IsSpanContextSampled (some sc) ∧
    scIsFromStressTest sc = IsSpanContextFromStressTest (some sc) ∧
    scGetTypeMarker sc = GetTypeMarker (some sc) := by
  have hflag := getSpecialFlag_eq sc
  have hdbg : scIsDebug sc = IsSpanContextDebug (some sc) := by
    unfold scIsDebug IsSpanContextDebug
    rw [← hflag]
    by_cases hold : isOldFormat sc
    · have h0 : getSpecialFlag sc &&& typeMarkerMask = typeMarkerForOldFormat := by
        have := of_decide_eq_true hold
        exact this
      by_cases hbit : getSpecialFlag sc &&& traceFlagOldDebug = traceFlagOldDebug
      · simp [hold, hbit]
      · simp [hold, hbit, h0, typeMarkerForOldFormat, typeMarkerForDebug]
    · simp [hold]
  refine ⟨hdbg, ?_, ?_, ?_⟩
  · unfold scIsSampled IsSpanContextSampled
    rw [← hflag, hdbg]
  · unfold scIsFromStressTest IsSpanContextFromStressTest
    rw [← hflag]
  · unfold scGetTypeMarker GetTypeMarker
    rw [← hflag]

/-- C10 witness: the agreement instantiated at a concrete context carrying
    flag byte 97 (stress-test marker plus a stray legacy bit). -/
theorem deprecated_methods_agree_witness :
    scIsDebug (ctxOfFlag 97) = IsSpanContextDebug (some (ctxOfFlag 97)) ∧
    scIsSampled (ctxOfFlag 97) = IsSpanContextSampled (some (ctxOfFlag 97)) ∧
    scIsFromStressTest (ctxOfFlag 97) = IsSpanContextFromStressTest (some (ctxOfFlag 97)) ∧
    scGetTypeMarker (ctxOfFlag 97) = GetTypeMarker (some (ctxOfFlag 97)) :=
  deprecated_methods_agree (ctxOfFlag 97)

/-- C8: the sampler clamps its rate into [0,1] at construction; with a rate
    at or below 0 no draw in [0,1) samples, with a rate at or above 1 every
    draw in [0,1) samples. -/
theorem sampler_boundaries (rate draw : ℚ) (h0 : 0 ≤ draw) (h1 : draw < 1) :
    (0 ≤ (NewProbabilisticSampler rate).samplingRate ∧
      (NewProbabilisticSampler rate).samplingRate ≤ 1) ∧
    (rate ≤ 0 → samplerIsSampled (NewProbabilisticSampler rate) draw = false) ∧
    (1 ≤ rate → samplerIsSampled (NewProbabilisticSampler rate) draw = true) := by
  refine ⟨⟨le_max_left 0 _, max_le (by norm_num) (min_le_right rate 1)⟩, ?_, ?_⟩
  · intro hr
    have hclamp : (NewProbabilisticSampler rate).samplingRate = 0 := by
      unfold NewProbabilisticSampler
      have : min rate 1 ≤ 0 := le_trans (min_le_left rate 1) hr
      simp [max_eq_left this]
    simp [samplerIsSampled, hclamp]
    linarith
  · intro hr
    have hclamp : (NewProbabilisticSampler rate).samplingRate = 1 := by
      unfold NewProbabilisticSampler
      rw [min_eq_right hr]
      simp
    simp [samplerIsSampled, hclamp, h1]

/-- C8 witness: rate 2 clamps to 1 and samples the draw 1/2; the rate -1
    side is exercised through rate 2's bounds. -/
theorem sampler_boundaries_witness :
    (0 ≤ (NewProbabilisticSampler 2).samplingRate ∧
      (NewProbabilisticSampler 2).samplingRate ≤ 1) ∧
    ((2 : ℚ) ≤ 0 → samplerIsSampled (NewProbabilisticSampler 2) (1 / 2) = false) ∧
    ((1 : ℚ) ≤ 2 → samplerIsSampled (NewProbabilisticSampler 2) (1 / 2) = true) :=
  sampler_boundaries 2 (1 / 2) (by norm_num) (by norm_num)


theorem length_getRandomBytes (bs : List Nat) : (getRandomBytes bs).length = bs.length := by
  unfold getRandomBytes
  split
  · rfl
  · split
    · split
      · simp [List.length_set]
      · rfl
    · rfl

theorem take_len_append {α : Type} (l r : List α) (n : Nat) (h : l.length = n) :
    (l ++ r).take n = l := by
  subst h; exact List.take_left l r

theorem drop_len_append {α : Type} (l r : List α) (n : Nat) (h : l.length = n) :
    (l ++ r).drop n = r := by
  subst h; exact List.drop_left l r

theorem getD_len_append {α : Type} (l r : List α) (n : Nat) (h : l.length = n) (x : α) :
    (l ++ r).getD n x = r.getD 0 x := by
  subst h
  rw [List.getD_eq_getElem?_getD, List.getElem?_append_right (le_refl _), Nat.sub_self,
    ← List.getD_eq_getElem?_getD]

theorem length_newSpanID (lvl seq : Nat) (rnd : List Nat) :
    (newSpanID lvl seq rnd).length = 3 + rnd.length := by
  unfold newSpanID
  split <;> simp [length_getRandomBytes] <;> omega

theorem idFlag_newSpanContext (env : GenEnv) (sco : SpanContextOptions) (he : EnvOK env) :
    (NewSpanContext env sco).id.getD (traceIDSize - 1) 0 =
      setSingleFlags sco (setTypeMarker sco 0) env.samplerDecision := by
  obtain ⟨h4, h5, _⟩ := he
  show (newSpanContextID env _).getD (traceIDSize - 1) 0 = _
  unfold newSpanContextID
  rw [getD_len_append _ _ _ (by simp [tsBytes, length_getRandomBytes, h4, h5, traceIDSize])]
  rfl

theorem genFlag_of_debug (sco : SpanContextOptions) (d : Bool) (hd : sco.IsDebug = true) :
    setSingleFlags sco (setTypeMarker sco 0) d &&& typeMarkerMask = 0 ∧
    setSingleFlags sco (setTypeMarker sco 0) d &&& traceFlagOldDebug = traceFlagOldDebug := by
  unfold setSingleFlags setTypeMarker
  rw [hd]
  simp only [if_true]
  rcases hs : sco.IsSampled with _ | v
  · cases d <;> cases hc : sco.IsCritical <;> simp [hs, hc] <;> decide
  · cases v <;> cases hc : sco.IsCritical <;> simp [hs, hc] <;> decide

/-- C1 (amended): constructing a root with IsDebug and IsFromStressTest both
    true lets debug win, but through the temporary legacy debug bit: the
    type-marker bits stay zero, so GetTypeMarker is the old-format value 0
    (not the debug value 2), the stress-test marker is not set, and the
    context is still reported as debug via the legacy-bit fallback. -/
theorem debug_wins_via_legacy_bit (env : GenEnv) (sco : SpanContextOptions)
    (he : EnvOK env) (hd : sco.IsDebug = true) :
    GetTypeMarker (some (NewSpanContext env sco)) = 0 ∧
    IsSpanContextDebug (some (NewSpanContext env sco)) = true ∧
    IsSpanContextFromStressTest (some (NewSpanContext env sco)) = false := by
  have hflag : getSpecialFlag (NewSpanContext env sco) =
      setSingleFlags sco (setTypeMarker sco 0) env.samplerDecision := by
    rw [getSpecialFlag_eq]
    exact idFlag_newSpanContext env sco he
  obtain ⟨hm, hb⟩ := genFlag_of_debug sco env.samplerDecision hd
  refine ⟨?_, ?_, ?_⟩
  · simp [GetTypeMarker, hflag, hm]
  · have hold : isOldFormat (NewSpanContext env sco) = true := by
      simp [isOldFormat, hflag, hm, typeMarkerForOldFormat]
    simp [IsSpanContextDebug, hold, hflag, hb]
  · simp [IsSpanContextFromStressTest, hflag, hm, typeMarkerForStressTest]

/-- C1 (amended) witness: a concrete environment and the debug+stress-test
    option set. -/
theorem debug_wins_via_legacy_bit_witness :
    GetTypeMarker (some (NewSpanContext ⟨[1, 2, 3, 4], 0, [5, 5, 5, 5, 5], [6, 6, 6, 6, 6], false⟩
      ⟨true, true, false, none, false⟩)) = 0 ∧
    IsSpanContextDebug (some (NewSpanContext ⟨[1, 2, 3, 4], 0, [5, 5, 5, 5, 5], [6, 6, 6, 6, 6], false⟩
      ⟨true, true, false, none, false⟩)) = true ∧
    IsSpanContextFromStressTest (some (NewSpanContext ⟨[1, 2, 3, 4], 0, [5, 5, 5, 5, 5], [6, 6, 6, 6, 6], false⟩
      ⟨true, true, false, none, false⟩)) = false :=
  debug_wins_via_legacy_bit _ _ (by decide) rfl

/-- C1 (counterexample): on that same concrete debug+stress-test
    construction, GetTypeMarker does not return the debug value 2 (it
    returns the old-format value 0), refuting the claim as stated. -/
theorem debug_stress_marker_counterexample :
    GetTypeMarker (some (NewSpanContext ⟨[1, 2, 3, 4], 0, [5, 5, 5, 5, 5], [6, 6, 6, 6, 6], false⟩
      ⟨true, true, false, none, false⟩)) ≠ 2 ∧
    GetTypeMarker (some (NewSpanContext ⟨[1, 2, 3, 4], 0, [5, 5, 5, 5, 5], [6, 6, 6, 6, 6], false⟩
      ⟨true, true, false, none, false⟩)) = 0 := by
  decide


theorem length_traceID (sc : SpanCtx) (h : WF sc) : (traceID sc).length = 16 := by
  simp [traceID, h.1, traceIDSize, totalIDSize, spanIDSize]

theorem length_spanID (sc : SpanCtx) (h : WF sc) : (spanID sc).length = 8 := by
  simp [spanID, h.1, traceIDSize, totalIDSize, spanIDSize]

theorem child_id (sc : SpanCtx) (rnd : List Nat) :
    ((newChildSpanContext sc rnd).2).id =
      traceID sc ++ newSpanID ((level sc + 1) % 256) sc.childSequenceID rnd ++ spanID sc := rfl

theorem traceID_child (sc : SpanCtx) (rnd : List Nat) (h : WF sc) :
    traceID (newChildSpanContext sc rnd).2 = traceID sc := by
  show (traceID sc ++ _ ++ _).take traceIDSize = traceID sc
  rw [List.append_assoc]
  exact take_len_append _ _ _ (by rw [length_traceID sc h]; rfl)

theorem parentID_child (sc : SpanCtx) (rnd : List Nat) (h : WF sc) (hr : rnd.length = 5) :
    parentID (newChildSpanContext sc rnd).2 = spanID sc := by
  show (traceID sc ++ _ ++ _).drop (traceIDSize + spanIDSize) = spanID sc
  exact drop_len_append _ _ _
    (by simp [length_traceID sc h, length_newSpanID, hr, traceIDSize, spanIDSize])

theorem spanID_child (sc : SpanCtx) (rnd : List Nat) (h : WF sc) (hr : rnd.length = 5) :
    spanID (newChildSpanContext sc rnd).2 =
      newSpanID ((level sc + 1) % 256) sc.childSequenceID rnd := by
  show ((traceID sc ++ _ ++ _).drop traceIDSize).take spanIDSize = _
  rw [List.append_assoc,
    drop_len_append _ _ _ (by rw [length_traceID sc h]; rfl)]
  exact take_len_append _ _ _ (by simp [length_newSpanID, hr, spanIDSize])

theorem level_child (sc : SpanCtx) (rnd : List Nat) (h : WF sc) :
    level (newChildSpanContext sc rnd).2 = (level sc + 1) % 256 := by
  show (traceID sc ++ _ ++ _).getD traceIDSize 0 = _
  rw [List.append_assoc,
    getD_len_append _ _ _ (by rw [length_traceID sc h]; rfl)]
  rfl

/-- C4: a child context keeps the parent TraceID byte-for-byte (flag byte
    included), its ParentID is the parent SpanID, and its level byte is the
    parent level plus one (as a byte, so modulo 256; below 255 it is
    literally level + 1). -/
theorem child_hierarchy (sc : SpanCtx) (rnd : List Nat) (h : WF sc) (hr : rnd.length = 5) :
    traceID (newChildSpanContext sc rnd).2 = traceID sc ∧
    parentID (newChildSpanContext sc rnd).2 = spanID sc ∧
    level (newChildSpanContext sc rnd).2 = (level sc + 1) % 256 ∧
    (level sc < 255 → level (newChildSpanContext sc rnd).2 = level sc + 1) := by
  refine ⟨traceID_child sc rnd h, parentID_child sc rnd h hr, level_child sc rnd h, ?_⟩
  intro hlt
  rw [level_child sc rnd h]
  omega

/-- C4 witness: the hierarchy relations instantiated on a concrete parent. -/
theorem child_hierarchy_witness :
    traceID (newChildSpanContext ⟨0, List.replicate 32 7⟩ [1, 2, 3, 4, 5]).2 =
      traceID ⟨0, List.replicate 32 7⟩ ∧
    parentID (newChildSpanContext ⟨0, List.replicate 32 7⟩ [1, 2, 3, 4, 5]).2 =
      spanID ⟨0, List.replicate 32 7⟩ ∧
    level (newChildSpanContext ⟨0, List.replicate 32 7⟩ [1, 2, 3, 4, 5]).2 =
      (level ⟨0, List.replicate 32 7⟩ + 1) % 256 ∧
    (level ⟨0, List.replicate 32 7⟩ < 255 →
      level (newChildSpanContext ⟨0, List.replicate 32 7⟩ [1, 2, 3, 4, 5]).2 =
        level ⟨0, List.replicate 32 7⟩ + 1) :=
  child_hierarchy ⟨0, List.replicate 32 7⟩ [1, 2, 3, 4, 5] (by decide) rfl

theorem getRandomBytes_all_zero (bs : List Nat) (h5 : bs.length = 5) (hz : ∀ b ∈ bs, b = 0) :
    getRandomBytes bs = [0, 0, 0, 0, 1] := by
  have hrep : bs = List.replicate 5 0 := List.eq_replicate_iff.mpr ⟨h5, hz⟩
  rw [hrep]
  decide

theorem getRandomBytes_ne_zero (bs : List Nat) (h5 : bs.length = 5) :
    getRandomBytes bs ≠ List.replicate 5 0 := by
  intro hEq
  unfold getRandomBytes at hEq
  rw [h5] at hEq
  split at hEq
  · omega
  · split at hEq
    · split at hEq
      · have h1 : (bs.set 4 1).getD 4 0 = 1 := by
          rw [List.getD_eq_getElem?_getD, List.getElem?_set_self (by omega)]
          rfl
        rw [hEq] at h1
        simp [List.getD_eq_getElem?_getD, List.getElem?_replicate] at h1
      · rename_i hlast hloop
        rw [hEq] at hloop
        exact hloop (by decide)
    · rename_i hlast
      rw [hEq] at hlast
      exact hlast (by decide)

theorem newSpanID_ne_zero (lvl seq : Nat) (rnd : List Nat) (hr : rnd.length = 5) :
    newSpanID lvl seq rnd ≠ List.replicate 8 0 := by
  unfold newSpanID
  have hrep : (List.replicate 8 0 : List Nat) = 0 :: 0 :: 0 :: List.replicate 5 0 := by decide
  rw [hrep]
  split
  · intro hEq
    simp only [List.cons_append, List.nil_append, List.cons.injEq] at hEq
    exact getRandomBytes_ne_zero rnd hr hEq.2.2.2
  · intro hEq
    simp only [List.cons_append, List.nil_append, List.cons.injEq] at hEq
    exact getRandomBytes_ne_zero rnd hr hEq.2.2.2

/-- C9: whenever the 5 random tail bytes are all zero the last is forced to
    1, and every SpanID produced by the generator or by child derivation is
    different from the all-zero sentinel. -/
theorem spanID_never_zero :
    (∀ rnd : List Nat, rnd.length = 5 → (∀ b ∈ rnd, b = 0) →
      getRandomBytes rnd = [0, 0, 0, 0, 1]) ∧
    (∀ env sco, EnvOK env → spanID (NewSpanContext env sco) ≠ List.replicate 8 0) ∧
    (∀ sc rnd, WF sc → rnd.length = 5 →
      spanID (newChildSpanContext sc rnd).2 ≠ List.replicate 8 0) := by
  refine ⟨getRandomBytes_all_zero, ?_, ?_⟩
  · intro env sco he
    obtain ⟨h4, h5t, h5s⟩ := he
    have hsp : spanID (NewSpanContext env sco) = newSpanID 0 0 env.rndSpan := by
      show (((env.instanceIDHash ++ tsBytes env.timestamp ++ getRandomBytes env.rndTrace) ++
        _ :: (newSpanID 0 0 env.rndSpan ++ List.replicate spanIDSize 0)).drop traceIDSize).take
          spanIDSize = _
      rw [List.append_cons,
        drop_len_append _ _ _
          (by simp [tsBytes, length_getRandomBytes, h4, h5t, traceIDSize]),
        take_len_append _ _ _ (by simp [length_newSpanID, h5s, spanIDSize])]
    rw [hsp]
    exact newSpanID_ne_zero 0 0 env.rndSpan h5s
  · intro sc rnd hw hr
    rw [spanID_child sc rnd hw hr]
    exact newSpanID_ne_zero _ _ rnd hr

/-- C9 witness: the forced tail on all-zero randomness and the nonzero
    SpanID of a concrete generated root and derived child. -/
theorem spanID_never_zero_witness :
    getRandomBytes [0, 0, 0, 0, 0] = [0, 0, 0, 0, 1] ∧
    spanID (NewSpanContext ⟨[1, 2, 3, 4], 0, [5, 5, 5, 5, 5], [0, 0, 0, 0, 0], false⟩
      ⟨false, false, false, none, false⟩) ≠ List.replicate 8 0 ∧
    spanID (newChildSpanContext ⟨0, List.replicate 32 7⟩ [0, 0, 0, 0, 0]).2 ≠
      List.replicate 8 0 :=
  ⟨spanID_never_zero.1 [0, 0, 0, 0, 0] rfl (by decide),
   spanID_never_zero.2.1 _ _ (by decide),
   spanID_never_zero.2.2 _ [0, 0, 0, 0, 0] (by decide) rfl⟩


theorem seqOf_child (sc : SpanCtx) (rnd : List Nat) (h : WF sc) (hr : rnd.length = 5)
    (hm : sc.childSequenceID < 65536) :
    seqOf (newChildSpanContext sc rnd).2 = sc.childSequenceID := by
  unfold seqOf
  rw [spanID_child sc rnd h hr]
  unfold newSpanID
  by_cases hs : sc.childSequenceID > 0
  · rw [if_pos hs]
    simp only [List.cons_append, List.nil_append, List.getD_cons_succ, List.getD_cons_zero]
    rw [Nat.shiftRight_eq_div_pow]
    omega
  · rw [if_neg hs]
    simp only [List.cons_append, List.nil_append, List.getD_cons_succ, List.getD_cons_zero]
    omega

theorem wf_parent_after_child (sc : SpanCtx) (rnd : List Nat) (h : WF sc) :
    WF (newChildSpanContext sc rnd).1 := h

theorem spawn_length (sc : SpanCtx) (rs : List (List Nat)) :
    ((spawnChildren sc rs).2).length = rs.length := by
  induction rs generalizing sc with
  | nil => rfl
  | cons r rs ih => simp [spawnChildren, ih]

theorem spawn_seq (rs : List (List Nat)) : ∀ (sc : SpanCtx) (k : Nat), WF sc →
    sc.childSequenceID < 65536 → (∀ r ∈ rs, r.length = 5) → k < rs.length →
    seqOf (((spawnChildren sc rs).2).getD k dummyCtx) = (sc.childSequenceID + k) % 65536 := by
  induction rs with
  | nil =>
      intro sc k _ _ _ hk
      simp at hk
  | cons r rs ih =>
      intro sc k hw hm hr hk
      cases k with
      | zero =>
          show seqOf ((newChildSpanContext sc r).2) = _
          rw [seqOf_child sc r hw (hr r (by simp)) hm]
          omega
      | succ k =>
          show seqOf (((spawnChildren (newChildSpanContext sc r).1 rs).2).getD k dummyCtx) = _
          rw [ih (newChildSpanContext sc r).1 k (wf_parent_after_child sc r hw)
            (Nat.mod_lt _ (by omega)) (fun x hx => hr x (by simp [hx]))
            (by simpa using hk)]
          show ((sc.childSequenceID + 1) % 65536 + k) % 65536 = _
          omega

theorem spawn_counters (sc : SpanCtx) (rs : List (List Nat)) :
    ∀ c ∈ (spawnChildren sc rs).2, c.childSequenceID = 0 := by
  induction rs generalizing sc with
  | nil => simp [spawnChildren]
  | cons r rs ih =>
      intro c hc
      simp only [spawnChildren, List.mem_cons] at hc
      rcases hc with hcl | hcl
      · rw [hcl]; rfl
      · exact ih _ c hcl

theorem not_pairwise_ne_of_getD_eq (l : List Nat) (i j : Nat) (hij : i < j)
    (hj : j < l.length) (heq : l.getD i 0 = l.getD j 0) : ¬ l.Pairwise (· ≠ ·) := by
  intro hp
  have hi : i < l.length := lt_trans hij hj
  have hne := List.pairwise_iff_getElem.mp hp i j hi hj hij
  rw [List.getD_eq_getElem l 0 hi, List.getD_eq_getElem l 0 hj] at heq
  exact hne heq

theorem getD_map_of_lt (f : SpanCtx → Nat) (l : List SpanCtx) (k : Nat) (hk : k < l.length)
    (d : Nat) (e : SpanCtx) : (l.map f).getD k d = f (l.getD k e) := by
  rw [List.getD_eq_getElem (l.map f) d (by rw [List.length_map]; omega),
    List.getD_eq_getElem l e hk, List.getElem_map]

theorem wrapSpawn_length : ((spawnChildren ⟨0, List.replicate 32 7⟩
    (List.replicate 65537 [9, 9, 9, 9, 9])).2).length = 65537 := by
  rw [spawn_length, List.length_replicate]

theorem wrapSpawn_seq : ∀ k, k < 65537 →
    seqOf (((spawnChildren ⟨0, List.replicate 32 7⟩
      (List.replicate 65537 [9, 9, 9, 9, 9])).2).getD k dummyCtx) = k % 65536 := by
  intro k hk
  rw [spawn_seq (List.replicate 65537 [9, 9, 9, 9, 9]) ⟨0, List.replicate 32 7⟩ k (by decide)
    (by decide) (fun r hr => by rw [List.eq_of_mem_replicate hr]; rfl)
    (by rw [List.length_replicate]; omega)]
  show (0 + k) % 65536 = k % 65536
  omega

/-- C5 (counterexample): the child-sequence counter is a uint16, so after
    65536 derivations from one instance it wraps: children number 0 and
    number 65536 of the same parent instance both carry sequence value 0,
    so 65537 sequential calls do not yield pairwise distinct (let alone
    monotonically increasing) sequence numbers. -/
theorem child_sequence_wraparound :
    ((spawnChildren ⟨0, List.replicate 32 7⟩ (List.replicate 65537 [9, 9, 9, 9, 9])).2).length =
      65537 ∧
    seqOf (((spawnChildren ⟨0, List.replicate 32 7⟩
      (List.replicate 65537 [9, 9, 9, 9, 9])).2).getD 0 dummyCtx) = 0 ∧
    seqOf (((spawnChildren ⟨0, List.replicate 32 7⟩
      (List.replicate 65537 [9, 9, 9, 9, 9])).2).getD 65536 dummyCtx) = 0 ∧
    ¬ (((spawnChildren ⟨0, List.replicate 32 7⟩
      (List.replicate 65537 [9, 9, 9, 9, 9])).2).map seqOf).Pairwise (· ≠ ·) := by
  refine ⟨wrapSpawn_length, by rw [wrapSpawn_seq 0 (by omega)],
    by rw [wrapSpawn_seq 65536 (by omega)], ?_⟩
  apply not_pairwise_ne_of_getD_eq _ 0 65536 (by omega)
    (by rw [List.length_map, wrapSpawn_length]; omega)
  rw [getD_map_of_lt seqOf ((spawnChildren ⟨0, List.replicate 32 7⟩
      (List.replicate 65537 [9, 9, 9, 9, 9])).2) 0 (by rw [wrapSpawn_length]; omega) 0 dummyCtx]
  rw [getD_map_of_lt seqOf ((spawnChildren ⟨0, List.replicate 32 7⟩
      (List.replicate 65537 [9, 9, 9, 9, 9])).2) 65536
      (by rw [wrapSpawn_length]; omega) 0 dummyCtx]
  rw [wrapSpawn_seq 0 (by omega), wrapSpawn_seq 65536 (by omega)]

/-- C5 (amended): for at most 65536 sequential derivations from a fresh
    parent instance (counter 0), the k-th child carries sequence number k —
    the value the parent counter held at that derivation — so the sequence
    numbers are pairwise distinct and strictly increasing in call order,
    and every child starts its own counter at 0. -/
theorem child_sequences_strictly_increasing (root : SpanCtx) (rs : List (List Nat))
    (hw : WF root) (h0 : root.childSequenceID = 0) (hN : rs.length ≤ 65536)
    (hr : ∀ r ∈ rs, r.length = 5) :
    ((spawnChildren root rs).2).length = rs.length ∧
    (∀ k, k < rs.length →
      seqOf (((spawnChildren root rs).2).getD k dummyCtx) = k) ∧
    (∀ i j, i < j → j < rs.length →
      seqOf (((spawnChildren root rs).2).getD i dummyCtx) <
        seqOf (((spawnChildren root rs).2).getD j dummyCtx)) ∧
    (∀ c ∈ (spawnChildren root rs).2, c.childSequenceID = 0) := by
  have hseq : ∀ k, k < rs.length →
      seqOf (((spawnChildren root rs).2).getD k dummyCtx) = k := by
    intro k hk
    rw [spawn_seq rs root k hw (by omega) hr hk, h0]
    omega
  refine ⟨spawn_length root rs, hseq, ?_, spawn_counters root rs⟩
  intro i j hij hj
  rw [hseq i (by omega), hseq j hj]
  exact hij

/-- C5 (amended) witness: two sequential children of a fresh root carry
    sequence numbers 0 and 1. -/
theorem child_sequences_strictly_increasing_witness :
    seqOf (((spawnChildren ⟨0, List.replicate 32 7⟩ [[1, 1, 1, 1, 1], [2, 2, 2, 2, 2]]).2).getD 0
      dummyCtx) <
    seqOf (((spawnChildren ⟨0, List.replicate 32 7⟩ [[1, 1, 1, 1, 1], [2, 2, 2, 2, 2]]).2).getD 1
      dummyCtx) :=
  (child_sequences_strictly_increasing ⟨0, List.replicate 32 7⟩ [[1, 1, 1, 1, 1], [2, 2, 2, 2, 2]]
    (by decide) rfl (by decide) (by decide)).2.2.1 0 1 (by decide) (by decide)


theorem strIndex_none (c : Char) (l : List Char) (h : c ∉ l) : strIndex c l = none := by
  induction l with
  | nil => rfl
  | cons x xs ih =>
      have hx : ¬(x = c) := by
        intro e; exact h (by simp [e])
      simp only [strIndex, if_neg hx, ih (fun m => h (by simp [m]))]
      rfl

theorem strLastIndex_none (c : Char) (l : List Char) (h : c ∉ l) : strLastIndex c l = none := by
  induction l with
  | nil => rfl
  | cons x xs ih =>
      have hx : ¬(x = c) := by
        intro e; exact h (by simp [e])
      simp only [strLastIndex, ih (fun m => h (by simp [m])), if_neg hx]

theorem strIndex_isSome (c : Char) (l : List Char) (h : c ∈ l) :
    (strIndex c l).isSome = true := by
  induction l with
  | nil => simp at h
  | cons x xs ih =>
      by_cases hx : x = c
      · simp [strIndex, hx]
      · have hm : c ∈ xs := by
          rcases List.mem_cons.mp h with he | hm
          · exact absurd he.symm hx
          · exact hm
        simp only [strIndex, if_neg hx]
        rcases Option.isSome_iff_exists.mp (ih hm) with ⟨i, hi⟩
        simp [hi]

theorem count_one_first_eq_last (c : Char) (l : List Char) (h : l.count c = 1) :
    strIndex c l = strLastIndex c l := by
  induction l with
  | nil => rfl
  | cons x xs ih =>
      by_cases hx : x = c
      · have hcnt : xs.count c = 0 := by
          have := List.count_cons c x xs  -- shape check below
          simp [List.count_cons, hx] at h
          omega
        have hnot : c ∉ xs := List.count_eq_zero.mp hcnt
        simp [strIndex, strLastIndex, hx, strLastIndex_none c xs hnot]
      · have hcnt : xs.count c = 1 := by
          simp [List.count_cons, hx] at h
          exact h
        have hmem : c ∈ xs := List.count_pos_iff.mp (by omega)
        rcases Option.isSome_iff_exists.mp (strIndex_isSome c xs hmem) with ⟨i, hi⟩
        simp only [strIndex, strLastIndex, if_neg hx, ← ih hcnt, hi]
        rfl

/-- C2 (amended): `NewSpanContextFromString` rejects, with a format error,
    every string that is empty or contains at most one colon (so that the
    first colon is not strictly before the last); it performs no
    segment-length validation beyond that, and an overlong all-hex first
    segment drives the decoder past its destination capacity — a crash, not
    an error, exhibited here on a 66-character first segment. -/
theorem fromString_colon_guard :
    (∀ data : List Char, data.count ':' ≤ 1 → NewSpanContextFromString data = .fmtErr) ∧
    NewSpanContextFromString (List.replicate 66 'a' ++ [':', 'a', 'a', ':', 'b', 'b']) =
      .crash := by
  constructor
  · intro data h
    unfold NewSpanContextFromString
    by_cases hlen : data.length = 0
    · rw [if_pos hlen]
    · rw [if_neg hlen]
      rcases Nat.lt_or_ge (data.count ':') 1 with hc | hc
      · have h0 : data.count ':' = 0 := by omega
        have hnot : ':' ∉ data := List.count_eq_zero.mp h0
        rw [strIndex_none _ _ hnot, strLastIndex_none _ _ hnot]
      · have h1 : data.count ':' = 1 := by omega
        have heq := count_one_first_eq_last ':' data h1
        have hmem : ':' ∈ data := List.count_pos_iff.mp (by omega)
        rcases Option.isSome_iff_exists.mp (strIndex_isSome ':' data hmem) with ⟨i, hi⟩
        rw [hi, ← heq, hi]
        simp
  · decide

/-- C2 (amended) witness: a colon-free string is rejected with the format
    error. -/
theorem fromString_colon_guard_witness :
    NewSpanContextFromString ['a', 'b', 'c'] = .fmtErr :=
  fromString_colon_guard.1 ['a', 'b', 'c'] (by decide)

/-- C2 (counterexample): the 8-character string "ab:cd:ef" has segment
    lengths 2/2/2 — far from 32/16/16 — yet parses successfully, refuting
    the claim that every malformed-length input is rejected with an error. -/
theorem fromString_accepts_short_segments :
    NewSpanContextFromString ['a', 'b', ':', 'c', 'd', ':', 'e', 'f'] =
      .ok { childSequenceID := 0,
            id := 171 :: List.replicate 15 0 ++ 205 :: List.replicate 7 0 ++
              239 :: List.replicate 7 0 } := by
  decide


theorem fromHexChar_hexDigit (n : Nat) (h : n < 16) : fromHexChar (hexDigit n) = some n :=
  (by decide : ∀ m, m < 16 → fromHexChar (hexDigit m) = some m) n h

theorem hexDigit_ne_colon (n : Nat) (h : n < 16) : hexDigit n ≠ ':' :=
  (by decide : ∀ m, m < 16 → hexDigit m ≠ ':') n h

theorem length_hexEncode (bs : List Nat) : (hexEncode bs).length = 2 * bs.length := by
  induction bs with
  | nil => rfl
  | cons b bs ih =>
      have hb2 : (hexEncodeByte b).length = 2 := rfl
      show (hexEncodeByte b ++ hexEncode bs).length = 2 * (b :: bs).length
      rw [List.length_append, ih, hb2, List.length_cons]
      omega

theorem colon_not_mem_hexEncode (bs : List Nat) (h : ∀ b ∈ bs, b < 256) :
    ':' ∉ hexEncode bs := by
  induction bs with
  | nil => simp [hexEncode]
  | cons b bs ih =>
      intro hm
      have hb : b < 256 := h b (by simp)
      simp only [hexEncode, hexEncodeByte, List.cons_append, List.nil_append,
        List.mem_cons] at hm
      rcases hm with h1 | h1 | h1
      · exact hexDigit_ne_colon (b / 16) (by omega) h1.symm
      · exact hexDigit_ne_colon (b % 16) (by omega) h1.symm
      · exact ih (fun x hx => h x (by simp [hx])) h1

theorem strIndex_append_cons (c : Char) (l r : List Char) (h : c ∉ l) :
    strIndex c (l ++ c :: r) = some l.length := by
  induction l with
  | nil => simp [strIndex]
  | cons x xs ih =>
      have hx : ¬(x = c) := fun e => h (by simp [e])
      simp [List.cons_append, strIndex, hx, ih (fun m => h (by simp [m]))]

theorem strLastIndex_append_cons (c : Char) (l r : List Char) (h : c ∉ r) :
    strLastIndex c (l ++ c :: r) = some l.length := by
  induction l with
  | nil =>
      simp only [List.nil_append, strLastIndex, strLastIndex_none c r h, if_pos]
      rfl
  | cons x xs ih => simp [List.cons_append, strLastIndex, ih]

theorem take_succ_set (buf : List Nat) (off b : Nat) (h : off < buf.length) :
    (buf.set off b).take (off + 1) = buf.take off ++ [b] := by
  rw [List.set_eq_take_cons_drop b h]
  have hlen : (buf.take off).length = off := by
    rw [List.length_take]
    omega
  calc (buf.take off ++ b :: buf.drop (off + 1)).take (off + 1)
      = (buf.take off ++ b :: buf.drop (off + 1)).take ((buf.take off).length + 1) := by
        rw [hlen]
    _ = buf.take off ++ (b :: buf.drop (off + 1)).take 1 := List.take_append 1
    _ = buf.take off ++ [b] := by simp

theorem writeList_eq (bs : List Nat) : ∀ (buf : List Nat) (off : Nat),
    off + bs.length ≤ buf.length →
    writeList buf off bs = buf.take off ++ bs ++ buf.drop (off + bs.length) := by
  induction bs with
  | nil =>
      intro buf off h
      simp [writeList]
  | cons b bs ih =>
      intro buf off h
      have hoff : off < buf.length := by
        simp only [List.length_cons] at h
        omega
      show writeList (buf.set off b) (off + 1) bs = _
      rw [ih (buf.set off b) (off + 1)
        (by rw [List.length_set]; simp only [List.length_cons] at h; omega)]
      rw [take_succ_set buf off b hoff]
      rw [List.drop_set_of_lt _ _ (by omega : off < off + 1 + bs.length)]
      simp only [List.append_assoc, List.cons_append, List.nil_append, List.length_cons]
      rw [show off + 1 + bs.length = off + (bs.length + 1) from by omega]

theorem hexDecodeGo_encode (bs : List Nat) : ∀ (buf : List Nat) (start i : Nat),
    (∀ b ∈ bs, b < 256) → start + i + bs.length ≤ buf.length →
    hexDecodeGo buf start i (hexEncode bs) = .dok (writeList buf (start + i) bs) := by
  induction bs with
  | nil =>
      intro buf start i _ _
      rfl
  | cons b bs ih =>
      intro buf start i hb hlen
      have hb0 : b < 256 := hb b (by simp)
      show hexDecodeGo buf start i
        (hexDigit (b / 16) :: hexDigit (b % 16) :: hexEncode bs) = _
      unfold hexDecodeGo
      rw [fromHexChar_hexDigit (b / 16) (by omega), fromHexChar_hexDigit (b % 16) (by omega)]
      have hcond : i < buf.length - start := by
        simp only [List.length_cons] at hlen
        omega
      simp only [if_pos hcond]
      rw [show 16 * (b / 16) + b % 16 = b from by omega]
      rw [ih (buf.set (start + i) b) start (i + 1) (fun x hx => hb x (by simp [hx]))
        (by rw [List.length_set]; simp only [List.length_cons] at hlen; omega)]
      rfl

theorem parse_encode_segments (t s p : List Nat)
    (ht : t.length = 16) (hs : s.length = 8) (hp : p.length = 8)
    (hbt : ∀ b ∈ t, b < 256) (hbs : ∀ b ∈ s, b < 256) (hbp : ∀ b ∈ p, b < 256) :
    NewSpanContextFromString (hexEncode t ++ ':' :: (hexEncode s ++ ':' :: hexEncode p)) =
      .ok { childSequenceID := 0, id := t ++ s ++ p } := by
  have hTl : (hexEncode t).length = 32 := by rw [length_hexEncode, ht]
  have hSl : (hexEncode s).length = 16 := by rw [length_hexEncode, hs]
  have hPl : (hexEncode p).length = 16 := by rw [length_hexEncode, hp]
  have hTm : ':' ∉ hexEncode t := colon_not_mem_hexEncode t hbt
  have hPm : ':' ∉ hexEncode p := colon_not_mem_hexEncode p hbp
  have hassoc : hexEncode t ++ ':' :: (hexEncode s ++ ':' :: hexEncode p) =
      (hexEncode t ++ ':' :: hexEncode s) ++ ':' :: hexEncode p := by
    simp [List.append_assoc]
  have hne : ¬((hexEncode t ++ ':' :: (hexEncode s ++ ':' :: hexEncode p)).length = 0) := by
    simp only [List.length_append, List.length_cons]
    omega
  have hfi : strIndex ':' (hexEncode t ++ ':' :: (hexEncode s ++ ':' :: hexEncode p)) =
      some 32 := by
    rw [strIndex_append_cons ':' _ _ hTm, hTl]
  have hli : strLastIndex ':' (hexEncode t ++ ':' :: (hexEncode s ++ ':' :: hexEncode p)) =
      some 49 := by
    rw [hassoc, strLastIndex_append_cons ':' _ _ hPm]
    simp only [List.length_append, List.length_cons, hTl, hSl]
  have hseg1 : (hexEncode t ++ ':' :: (hexEncode s ++ ':' :: hexEncode p)).take 32 =
      hexEncode t := by
    rw [← hTl]
    exact take_len_append (hexEncode t) (':' :: (hexEncode s ++ ':' :: hexEncode p)) _ rfl
  have hseg2 : ((hexEncode t ++ ':' :: (hexEncode s ++ ':' :: hexEncode p)).drop 33).take 16 =
      hexEncode s := by
    rw [List.append_cons (hexEncode t) ':' (hexEncode s ++ ':' :: hexEncode p)]
    rw [drop_len_append (hexEncode t ++ [':']) (hexEncode s ++ ':' :: hexEncode p) 33
      (by simp [hTl])]
    rw [← hSl]
    exact take_len_append (hexEncode s) (':' :: hexEncode p) _ rfl
  have hseg3 : (hexEncode t ++ ':' :: (hexEncode s ++ ':' :: hexEncode p)).drop 50 =
      hexEncode p := by
    rw [hassoc, List.append_cons (hexEncode t ++ ':' :: hexEncode s) ':' (hexEncode p)]
    exact drop_len_append ((hexEncode t ++ ':' :: hexEncode s) ++ [':']) (hexEncode p) 50
      (by simp [hTl, hSl])
  have hdec1 : hexDecodeGo (List.replicate 32 0) 0 0 (hexEncode t) =
      .dok (t ++ List.replicate 16 0) := by
    rw [hexDecodeGo_encode t _ 0 0 hbt (by simp only [List.length_replicate, ht]; omega)]
    rw [writeList_eq t _ (0 + 0) (by simp only [List.length_replicate, ht]; omega)]
    rw [ht]
    norm_num
  have hdec2 : hexDecodeGo (t ++ List.replicate 16 0) 16 0 (hexEncode s) =
      .dok (t ++ s ++ List.replicate 8 0) := by
    rw [hexDecodeGo_encode s _ 16 0 hbs
      (by simp only [List.length_append, List.length_replicate, ht, hs]; omega)]
    rw [writeList_eq s _ (16 + 0)
      (by simp only [List.length_append, List.length_replicate, ht, hs]; omega)]
    rw [hs]
    norm_num
    have h1 : (t ++ List.replicate 16 0).take 16 = t := take_len_append _ _ _ ht
    have h2 : (t ++ List.replicate 16 0).drop 24 = List.replicate 8 0 := by
      rw [show (24 : Nat) = t.length + 8 from by rw [ht], List.drop_append]
      simp
    rw [h1, h2]
  have hdec3 : hexDecodeGo (t ++ s ++ List.replicate 8 0) 24 0 (hexEncode p) =
      .dok (t ++ s ++ p) := by
    rw [hexDecodeGo_encode p _ 24 0 hbp
      (by simp only [List.length_append, List.length_replicate, ht, hs, hp]; omega)]
    rw [writeList_eq p _ (24 + 0)
      (by simp only [List.length_append, List.length_replicate, ht, hs, hp]; omega)]
    rw [hp]
    norm_num
    have h1 : (t ++ (s ++ List.replicate 8 0)).take 24 = t ++ s := by
      rw [← List.append_assoc]
      exact take_len_append _ _ _ (by simp only [List.length_append, ht, hs])
    have h2 : (t ++ (s ++ List.replicate 8 0)).drop 32 = [] :=
      List.drop_eq_nil_of_le
        (by simp only [List.length_append, List.length_replicate, ht, hs]; omega)
    rw [h1, h2]
    simp [List.append_assoc]
  unfold NewSpanContextFromString
  rw [if_neg hne]
  simp only [hfi, hli, traceIDSize, spanIDSize, totalIDSize]
  rw [if_neg (by norm_num : ¬(49 ≤ 32))]
  norm_num
  simp only [hseg1, hdec1, hseg2, hdec2, hseg3, hdec3]
  simp [List.append_assoc]


/-- C3: serialization round-trips losslessly both ways: re-parsing
    `Bytes()` and re-parsing `String()` each succeed and reproduce the
    32-byte identifier byte-for-byte. -/
theorem span_context_roundtrip (sc : SpanCtx) (h : WF sc) :
    NewSpanContextFromBytes (scBytes sc) = some { childSequenceID := 0, id := sc.id } ∧
    NewSpanContextFromString (scString sc) = .ok { childSequenceID := 0, id := sc.id } := by
  obtain ⟨hlen, hbyte⟩ := h
  have hlen' : sc.id.length = 32 := by
    simpa [totalIDSize, traceIDSize, spanIDSize] using hlen
  constructor
  · simp [NewSpanContextFromBytes, scBytes, hlen]
  · have htl : (traceID sc).length = 16 := by simp [traceID, hlen', traceIDSize]
    have hsl : (spanID sc).length = 8 := by simp [spanID, hlen', traceIDSize, spanIDSize]
    have hpl : (parentID sc).length = 8 := by
      simp [parentID, hlen', traceIDSize, spanIDSize]
    have htb : ∀ b ∈ traceID sc, b < 256 := fun b hb => hbyte b (List.mem_of_mem_take hb)
    have hsb : ∀ b ∈ spanID sc, b < 256 :=
      fun b hb => hbyte b (List.mem_of_mem_drop (List.mem_of_mem_take hb))
    have hpb : ∀ b ∈ parentID sc, b < 256 := fun b hb => hbyte b (List.mem_of_mem_drop hb)
    have hrejoin : traceID sc ++ spanID sc ++ parentID sc = sc.id := by
      unfold traceID spanID parentID
      rw [List.append_assoc, ← List.drop_drop, List.take_append_drop, List.take_append_drop]
    show NewSpanContextFromString
      (hexEncode (traceID sc) ++ ':' ::
        (hexEncode (spanID sc) ++ ':' :: hexEncode (parentID sc))) = _
    rw [parse_encode_segments (traceID sc) (spanID sc) (parentID sc) htl hsl hpl htb hsb hpb,
      hrejoin]

/-- C3 witness: the round trip on a concrete well-formed context whose
    bytes are 100..131. -/
theorem span_context_roundtrip_witness :
    WF ⟨5, (List.range 32).map (fun i => i + 100)⟩ ∧
    (NewSpanContextFromBytes (scBytes ⟨5, (List.range 32).map (fun i => i + 100)⟩) =
        some { childSequenceID := 0, id := (List.range 32).map (fun i => i + 100) } ∧
      NewSpanContextFromString (scString ⟨5, (List.range 32).map (fun i => i + 100)⟩) =
        .ok { childSequenceID := 0, id := (List.range 32).map (fun i => i + 100) }) :=
  ⟨by decide, span_context_roundtrip _ (by decide)⟩

end LoggerSpec
